import Mathlib

/-!
Verification of the reverse-proxy core (routing table / dispatcher in
`proxy/proxy.go`, certificate store in the `ssl` package) against its
natural-language specification.

The Go code is shallowly embedded:
  * A Go `map[string]V` is modelled as an association list `GoMap V`
    (`List (String × V)`): a key is present exactly when it occurs in the
    list, and `m[k] = v` (`goInsert`) replaces the value in place or appends
    a new binding — in particular `m[k] = nil` *inserts* the key, as in Go.
  * A Go `*Service` value (possibly `nil`) is modelled as `Option Service`.
  * `http.ServeMux` registration is modelled by the list of installed
    patterns; `ServeMux.HandleFunc` panics on an empty pattern or a
    duplicate registration, modelled as the `Except.error` outcome of
    `AddProxy`.
  * File and network I/O is passed in explicitly: `loadCertificate` takes
    the result of `tls.LoadX509KeyPair` and the `x509.ParseCertificate`
    function as arguments; Go-map iteration order is an explicit
    permutation argument to `GetCertificate`.
-/

namespace ReverseProxy

/-- Association-list model of a Go `map[string]α`. -/
abbrev GoMap (α : Type) : Type := List (String × α)

/-- Go map read `v, ok := m[k]`: `none` means the key is absent. -/
def goFind {α : Type} : GoMap α → String → Option α
  | [], _ => none
  | (k', v) :: rest, k => if k' = k then some v else goFind rest k

/-- Go map write `m[k] = v`: replaces the binding in place, or appends a new
one if the key is absent.  Keys are never deleted. -/
def goInsert {α : Type} : GoMap α → String → α → GoMap α
  | [], k, v => [(k, v)]
  | (k', v') :: rest, k, v =>
    if k' = k then (k', v) :: rest else (k', v') :: goInsert rest k v

/-- The key set of a Go map. -/
def goKeys {α : Type} (m : GoMap α) : List String := m.map Prod.fst

theorem goFind_goInsert_self {α : Type} (m : GoMap α) (k : String) (v : α) :
    goFind (goInsert m k v) k = some v := by
  induction m with
  | nil => simp [goInsert, goFind]
  | cons e rest ih =>
    obtain ⟨k', v'⟩ := e
    by_cases h : k' = k
    · simp [goInsert, goFind, h]
    · simp [goInsert, goFind, h, ih]

theorem goFind_goInsert_ne {α : Type} (m : GoMap α) (k k' : String) (v : α)
    (h : k' ≠ k) : goFind (goInsert m k v) k' = goFind m k' := by
  induction m with
  | nil =>
    simp only [goInsert, goFind]
    rw [if_neg (fun h' => h h'.symm)]
  | cons e rest ih =>
    obtain ⟨k₀, v₀⟩ := e
    by_cases h0 : k₀ = k
    · subst h0
      simp only [goInsert, if_pos rfl, goFind]
      rw [if_neg (fun h' => h h'.symm), if_neg (fun h' => h h'.symm)]
    · simp only [goInsert, if_neg h0, goFind]
      by_cases h1 : k₀ = k'
      · simp [h1]
      · simp [h1, ih]

theorem goKeys_subset_goInsert {α : Type} (m : GoMap α) (k : String) (v : α) :
    ∀ x, x ∈ goKeys m → x ∈ goKeys (goInsert m k v) := by
  induction m with
  | nil => intro x hx; simp [goKeys] at hx
  | cons e rest ih =>
    obtain ⟨k₀, v₀⟩ := e
    intro x hx
    by_cases h0 : k₀ = k
    · simpa [goInsert, h0, goKeys] using hx
    · simp only [goKeys, List.map_cons, List.mem_cons] at hx
      rcases hx with hx | hx
      · simp [goInsert, if_neg h0, goKeys, hx]
      · simp only [goInsert, if_neg h0, goKeys, List.map_cons, List.mem_cons]
        exact Or.inr (ih x hx)

theorem goFind_mem {α : Type} (m : GoMap α) (k : String) (v : α)
    (h : goFind m k = some v) : (k, v) ∈ m := by
  induction m with
  | nil => simp [goFind] at h
  | cons e rest ih =>
    obtain ⟨k₀, v₀⟩ := e
    by_cases h0 : k₀ = k
    · subst h0
      have hv : v₀ = v := by simpa [goFind] using h
      subst hv
      exact List.mem_cons_self _ _
    · simp only [goFind, if_neg h0] at h
      exact List.mem_cons_of_mem _ (ih h)

theorem goInsert_of_absent {α : Type} (m : GoMap α) (k : String) (v : α)
    (h : goFind m k = none) : goInsert m k v = m ++ [(k, v)] := by
  induction m with
  | nil => simp [goInsert]
  | cons e rest ih =>
    obtain ⟨k₀, v₀⟩ := e
    by_cases h0 : k₀ = k
    · simp [goFind, h0] at h
    · simp only [goFind, if_neg h0] at h
      simp [goInsert, if_neg h0, ih h]

/-- `proxy.Service`: an immutable backend descriptor.  The
`httputil.ReverseProxy` forwarding capability is determined by `url`
(`NewSingleHostReverseProxy(parsed url)`), so only the three strings are
carried. -/
structure Service where
  name : String
  path : String
  url : String
deriving DecidableEq, Repr

/-- `proxy.RuntimeMux`: the routing table (`proxyServers`, a Go map whose
values are possibly-nil `*Service` pointers) together with the set of
patterns installed in the inner `http.ServeMux` (`muxPatterns`). -/
structure RuntimeMux where
  proxyServers : GoMap (Option Service)
  muxPatterns : List String
deriving DecidableEq, Repr

/-- `proxy.NewRuntimeMux()`: empty table, fresh `ServeMux`. -/
def NewRuntimeMux : RuntimeMux :=
  { proxyServers := [], muxPatterns := [] }

/-- `(*RuntimeMux).AddProxy`.  The source first reads `_, exists :=
ph.proxyServers[Service.Path]`, then writes the table entry, and only when
the key did not exist calls `ph.mux.HandleFunc(path, closure)`.
`ServeMux.HandleFunc` panics on the empty pattern and on a duplicate
pattern; a panic is modelled as `Except.error` (the Go function, when it
returns at all, always returns `nil`, hence the `Option String` second
component is the returned Go error). -/
def AddProxy (ph : RuntimeMux) (svc : Service) :
    Except String (RuntimeMux × Option String) :=
  let pExists := (goFind ph.proxyServers svc.path).isSome
  let ph1 : RuntimeMux :=
    { ph with proxyServers := goInsert ph.proxyServers svc.path (some svc) }
  if pExists then .ok (ph1, none)
  else if svc.path = "" then .error "http: invalid pattern"
  else if svc.path ∈ ph1.muxPatterns then
    .error ("http: multiple registrations for " ++ svc.path)
  else .ok ({ ph1 with muxPatterns := ph1.muxPatterns ++ [svc.path] }, none)

/-- `(*RuntimeMux).removeHandler`: `ph.proxyServers[Service.Path] = nil`.
In Go this inserts the key with a `nil` value when it was absent. -/
def removeHandler (ph : RuntimeMux) (svc : Service) : RuntimeMux :=
  { ph with proxyServers := goInsert ph.proxyServers svc.path none }

/-- An inbound HTTP request, reduced to the one field the embedded code
reads (`r.URL.Path`). -/
structure Request where
  path : String
deriving DecidableEq, Repr

/-- Outcome of serving one request through an installed entry point:
either forwarded upstream to a target URL, or answered locally with a
status code and body. -/
inductive DispatchResult where
  | forwarded (targetUrl : String)
  | fallback (status : Nat) (body : String)
deriving DecidableEq, Repr

/-- The closure installed by `AddProxy` for pattern `p`, together with the
`FallbackHandler` built in `NewRuntimeMux`: look the backend up in the
table at request time; if present and non-nil forward to it, otherwise
write `"fallback: Path not found" + r.URL.Path` (an implicit HTTP 200,
since `Write` without `WriteHeader` sends status 200). -/
def dispatch (ph : RuntimeMux) (p : String) (r : Request) : DispatchResult :=
  match goFind ph.proxyServers p with
  | some (some svc) => .forwarded svc.url
  | _ => .fallback 200 ("fallback: Path not found" ++ r.path)

theorem AddProxy_ok_shape (ph : RuntimeMux) (svc : Service)
    (r : RuntimeMux × Option String) (h : AddProxy ph svc = .ok r) :
    r.1.proxyServers = goInsert ph.proxyServers svc.path (some svc) ∧
      r.2 = none := by
  unfold AddProxy at h
  by_cases h1 : (goFind ph.proxyServers svc.path).isSome
  · simp only [h1, if_pos] at h
    cases h
    exact ⟨rfl, rfl⟩
  · simp only [h1, if_neg, Bool.false_eq_true] at h
    by_cases h2 : svc.path = ""
    · simp [h2] at h
    · simp only [h2, if_neg, if_false] at h
      by_cases h3 : svc.path ∈ ph.muxPatterns
      · simp [h3] at h
      · simp only [h3, if_neg, if_false] at h
        cases h
        exact ⟨rfl, rfl⟩

theorem AddProxy_of_present (ph : RuntimeMux) (svc : Service)
    (h : (goFind ph.proxyServers svc.path).isSome = true) :
    AddProxy ph svc =
      .ok ({ ph with
              proxyServers := goInsert ph.proxyServers svc.path (some svc) },
           none) := by
  unfold AddProxy
  simp [h]

theorem AddProxy_ok_first_installs (ph : RuntimeMux) (svc : Service)
    (r : RuntimeMux × Option String) (h : AddProxy ph svc = .ok r)
    (habs : goFind ph.proxyServers svc.path = none) :
    r.1.muxPatterns = ph.muxPatterns ++ [svc.path] := by
  unfold AddProxy at h
  simp only [habs, Option.isSome_none, Bool.false_eq_true, if_false] at h
  by_cases h2 : svc.path = ""
  · simp [h2] at h
  · simp only [h2, if_neg, if_false] at h
    by_cases h3 : svc.path ∈ ph.muxPatterns
    · simp [h3] at h
    · simp only [h3, if_neg, if_false] at h
      cases h
      rfl

/-- C1: after `register(b1)` then `register(b2)` on the same `pathPrefix`,
every dispatched request to that prefix is forwarded to `b2`'s target and
(when the targets differ) never to `b1`'s, because the backend is read
from the table at request time; the HTTP entry point is installed only on
the prefix's first registration — the second registration leaves the set
of installed patterns unchanged and replaces only the table entry. -/
theorem register_last_write_wins (s s1 s2 : RuntimeMux) (b1 b2 : Service)
    (e1 e2 : Option String) (hpath : b1.path = b2.path)
    (h1 : AddProxy s b1 = .ok (s1, e1))
    (h2 : AddProxy s1 b2 = .ok (s2, e2)) :
    (∀ r : Request, dispatch s2 b2.path r = .forwarded b2.url) ∧
    (∀ r : Request, b1.url ≠ b2.url →
      dispatch s2 b2.path r ≠ .forwarded b1.url) ∧
    s2.muxPatterns = s1.muxPatterns ∧
    (goFind s.proxyServers b1.path = none → b1.path ∈ s1.muxPatterns) := by
  have hs1 := (AddProxy_ok_shape s b1 (s1, e1) h1).1
  have hpresent : (goFind s1.proxyServers b2.path).isSome = true := by
    rw [hs1, ← hpath, goFind_goInsert_self]
    rfl
  have h2' := AddProxy_of_present s1 b2 hpresent
  rw [h2'] at h2
  cases h2
  refine ⟨?_, ?_, rfl, ?_⟩
  · intro r
    simp [dispatch, goFind_goInsert_self]
  · intro r hne
    simp only [dispatch, goFind_goInsert_self, ne_eq,
      DispatchResult.forwarded.injEq]
    exact fun h => hne h.symm
  · intro habs
    rw [AddProxy_ok_first_installs s b1 (s1, e1) h1 habs]
    exact List.mem_append_right _ (List.mem_singleton.mpr rfl)

theorem register_last_write_wins_witness :
    (⟨"a", "/p/", "http://one"⟩ : Service).path =
      (⟨"b", "/p/", "http://two"⟩ : Service).path ∧
    dispatch ⟨[("/p/", some ⟨"b", "/p/", "http://two"⟩)], ["/p/"]⟩ "/p/"
      ⟨"/p/x"⟩ = .forwarded "http://two" :=
  ⟨rfl,
   (register_last_write_wins NewRuntimeMux
      ⟨[("/p/", some ⟨"a", "/p/", "http://one"⟩)], ["/p/"]⟩
      ⟨[("/p/", some ⟨"b", "/p/", "http://two"⟩)], ["/p/"]⟩
      ⟨"a", "/p/", "http://one"⟩ ⟨"b", "/p/", "http://two"⟩
      none none rfl rfl rfl).1 ⟨"/p/x"⟩⟩

/-- C2: a request dispatched through an installed entry point whose table
entry is absent or tombstoned (`nil`) gets the fallback response: implicit
HTTP status 200 and the body `"fallback: Path not found" + r.URL.Path`,
which contains the unmatched request path (as its suffix); an unmatched
path is not an error. -/
theorem dispatch_fallback_on_missing (ph : RuntimeMux) (p : String)
    (r : Request) (_hbound : p ∈ ph.muxPatterns)
    (h : goFind ph.proxyServers p = none ∨
         goFind ph.proxyServers p = some none) :
    dispatch ph p r = .fallback 200 ("fallback: Path not found" ++ r.path) := by
  rcases h with h | h <;> simp [dispatch, h]

theorem dispatch_fallback_on_missing_witness :
    ("/test/" ∈ (⟨[("/test/", none)], ["/test/"]⟩ : RuntimeMux).muxPatterns) ∧
    dispatch ⟨[("/test/", none)], ["/test/"]⟩ "/test/" ⟨"/test/"⟩ =
      .fallback 200 ("fallback: Path not found" ++ "/test/") :=
  ⟨by simp,
   dispatch_fallback_on_missing ⟨[("/test/", none)], ["/test/"]⟩ "/test/"
     ⟨"/test/"⟩ (by simp) (Or.inr rfl)⟩

/-- C7 counterexample: `AddProxy` does not fail on an invalid (empty)
prefix.  On a table where the empty path is already a key (reachable by
one `removeHandler` call), registering a backend with the empty prefix
returns `nil` (success); and on a fresh table it panics inside
`ServeMux.HandleFunc` rather than returning an error.  In neither case
does `AddProxy` return a Go error. -/
theorem register_empty_path_no_error :
    AddProxy (removeHandler NewRuntimeMux ⟨"t", "", "u"⟩)
        ⟨"x", "", "http://h"⟩ =
      .ok (⟨[("", some ⟨"x", "", "http://h"⟩)], []⟩, none) ∧
    AddProxy NewRuntimeMux ⟨"x", "", "http://h"⟩ =
      .error "http: invalid pattern" :=
  ⟨rfl, rfl⟩

/-- C7 amended: `AddProxy` performs no validation at all and, whenever it
returns (rather than panicking in `ServeMux.HandleFunc` while installing
an entry point), the Go error it returns is `nil` — it never fails with an
error, not even for an empty prefix or a malformed backend. -/
theorem register_never_returns_error (ph : RuntimeMux) (svc : Service)
    (r : RuntimeMux × Option String) (h : AddProxy ph svc = .ok r) :
    r.2 = none :=
  (AddProxy_ok_shape ph svc r h).2

theorem register_never_returns_error_witness :
    AddProxy NewRuntimeMux ⟨"a", "/q/", "u"⟩ =
      .ok (⟨[("/q/", some ⟨"a", "/q/", "u"⟩)], ["/q/"]⟩, none) ∧
    ((⟨[("/q/", some ⟨"a", "/q/", "u"⟩)], ["/q/"]⟩, (none : Option String))
        : RuntimeMux × Option String).2 = none :=
  ⟨rfl,
   register_never_returns_error NewRuntimeMux ⟨"a", "/q/", "u"⟩
     (⟨[("/q/", some ⟨"a", "/q/", "u"⟩)], ["/q/"]⟩, none) rfl⟩

/-- C8 counterexample: `removeHandler` on a never-registered prefix is not
a no-op on the `proxyServers` map.  In Go, `ph.proxyServers[path] = nil`
inserts the key when absent, so on a fresh table the map changes from
empty to one holding a `nil` entry for the prefix. -/
theorem deregister_unregistered_mutates_table :
    goFind NewRuntimeMux.proxyServers "/x" = none ∧
    (removeHandler NewRuntimeMux ⟨"t", "/x", "u"⟩).proxyServers = [("/x", none)] ∧
    (removeHandler NewRuntimeMux ⟨"t", "/x", "u"⟩).proxyServers ≠
      NewRuntimeMux.proxyServers :=
  ⟨rfl, rfl, by decide⟩

/-- C8 amended: `removeHandler` on a never-registered prefix is a no-op
only observationally — dispatch through every entry point behaves exactly
as before — but it does mutate the `proxyServers` map, appending the
prefix as a new key bound to the `nil` tombstone. -/
theorem deregister_unregistered_observational (ph : RuntimeMux)
    (svc : Service) (h : goFind ph.proxyServers svc.path = none) :
    (removeHandler ph svc).proxyServers = ph.proxyServers ++ [(svc.path, none)] ∧
    ∀ p r, dispatch (removeHandler ph svc) p r = dispatch ph p r := by
  constructor
  · exact goInsert_of_absent ph.proxyServers svc.path none h
  · intro p r
    by_cases hp : p = svc.path
    · subst hp
      simp [dispatch, removeHandler, goFind_goInsert_self, h]
    · simp [dispatch, removeHandler, goFind_goInsert_ne _ _ _ _ hp]

theorem deregister_unregistered_observational_witness :
    goFind NewRuntimeMux.proxyServers "/x" = none ∧
    dispatch (removeHandler NewRuntimeMux ⟨"t", "/x", "u"⟩) "/x" ⟨"/x"⟩ =
      dispatch NewRuntimeMux "/x" ⟨"/x"⟩ :=
  ⟨rfl,
   (deregister_unregistered_observational NewRuntimeMux ⟨"t", "/x", "u"⟩
      rfl).2 "/x" ⟨"/x"⟩⟩

/-- One administrative operation on the routing table. -/
inductive MuxOp where
  | add (svc : Service)
  | remove (svc : Service)
deriving DecidableEq, Repr

/-- Run a sequence of `AddProxy` / `removeHandler` calls; a panic inside
`AddProxy` aborts the sequence. -/
def applyOps (ph : RuntimeMux) : List MuxOp → Except String RuntimeMux
  | [] => .ok ph
  | .add svc :: rest =>
    match AddProxy ph svc with
    | .error e => .error e
    | .ok (ph', _) => applyOps ph' rest
  | .remove svc :: rest => applyOps (removeHandler ph svc) rest

/-- C10: across any sequence of `AddProxy` / `removeHandler` operations
that completes normally, the key set of the `proxyServers` map never
loses a key: `AddProxy` inserts or overwrites a binding and
`removeHandler` overwrites (or inserts) a binding with `nil`, but no
operation ever deletes a key, so once a path is a key it stays one. -/
theorem table_keys_monotone (ops : List MuxOp) (ph ph' : RuntimeMux)
    (h : applyOps ph ops = .ok ph') :
    ∀ k, k ∈ goKeys ph.proxyServers → k ∈ goKeys ph'.proxyServers := by
  induction ops generalizing ph with
  | nil =>
    simp only [applyOps, Except.ok.injEq] at h
    subst h
    exact fun k hk => hk
  | cons op rest ih =>
    cases op with
    | add svc =>
      simp only [applyOps] at h
      cases hadd : AddProxy ph svc with
      | error e => rw [hadd] at h; cases h
      | ok r =>
        rw [hadd] at h
        obtain ⟨r1, r2⟩ := r
        intro k hk
        refine ih r1 h k ?_
        rw [(AddProxy_ok_shape ph svc (r1, r2) hadd).1]
        exact goKeys_subset_goInsert _ _ _ k hk
    | remove svc =>
      simp only [applyOps] at h
      intro k hk
      refine ih (removeHandler ph svc) h k ?_
      exact goKeys_subset_goInsert _ _ _ k hk

theorem table_keys_monotone_witness :
    applyOps ⟨[("/a/", none)], []⟩
        [.add ⟨"s", "/p/", "u"⟩, .remove ⟨"s", "/p/", "u"⟩,
         .add ⟨"t", "/q/", "v"⟩] =
      .ok ⟨[("/a/", none), ("/p/", none), ("/q/", some ⟨"t", "/q/", "v"⟩)],
           ["/p/", "/q/"]⟩ ∧
    "/a/" ∈ goKeys
      (⟨[("/a/", none), ("/p/", none), ("/q/", some ⟨"t", "/q/", "v"⟩)],
        ["/p/", "/q/"]⟩ : RuntimeMux).proxyServers :=
  ⟨rfl,
   table_keys_monotone
     [.add ⟨"s", "/p/", "u"⟩, .remove ⟨"s", "/p/", "u"⟩,
      .add ⟨"t", "/q/", "v"⟩]
     ⟨[("/a/", none)], []⟩
     ⟨[("/a/", none), ("/p/", none), ("/q/", some ⟨"t", "/q/", "v"⟩)],
      ["/p/", "/q/"]⟩
     rfl "/a/" (by simp [goKeys])⟩

/-- An opaque DER-encoded certificate blob, as held in
`tls.Certificate.Certificate`. -/
abbrev Blob : Type := Nat

/-- The fields of a parsed `x509.Certificate` that `loadCertificate`
reads. -/
structure X509Cert where
  dnsNames : List String
  commonName : String
deriving DecidableEq, Repr

/-- A `tls.Certificate` (key pair) as returned by `tls.LoadX509KeyPair`:
only its `Certificate` chain is inspected by the embedded code, so only
that field is carried. -/
structure KeyPair where
  certificate : List Blob
deriving DecidableEq, Repr

/-- The hostname under which `loadCertificate` stores a certificate:
its first SAN entry, else its subject common name. -/
def certDomain (x : X509Cert) : String :=
  match x.dnsNames with
  | d :: _ => d
  | [] => x.commonName

/-- `(*CertManager).loadCertificate`, with the two I/O-dependent steps
passed in explicitly: `load` is the result of
`tls.LoadX509KeyPair(certFile, keyFile)` and `parse` is
`x509.ParseCertificate` applied to a leaf blob.  Returns the new
`certs` map plus the returned Go error (`none` = `nil`). -/
def loadCertificate (load : Except String KeyPair)
    (parse : Blob → Except String X509Cert) (certs : GoMap KeyPair) :
    GoMap KeyPair × Option String :=
  match load with
  | .error e => (certs, some ("failed to load certificate: " ++ e))
  | .ok cert =>
    match cert.certificate with
    | [] => (certs, none)
    | b :: _ =>
      match parse b with
      | .error e => (certs, some ("failed to parse certificate: " ++ e))
      | .ok x => (goInsert certs (certDomain x) cert, none)

/-- `(*CertManager).GetCertificate`.  The Go source falls back to
`for _, cert := range cm.certs { return cert, nil }`; since Go map
iteration order is unspecified, the iteration sequence is passed in as
`order`, constrained in the theorems to be a permutation of the map's
entries. -/
def GetCertificate (certs : GoMap KeyPair)
    (order : List (String × KeyPair)) (serverName : String) :
    Except String KeyPair :=
  match goFind certs serverName with
  | some c => .ok c
  | none =>
    match order with
    | (_, c) :: _ => .ok c
    | [] => .error ("no certificate found for " ++ serverName)

/-- C3: when `loadCertificate` returns an error — the file pair could not
be read, or the leaf certificate could not be parsed — the `certificates`
map is exactly what it was before the call: no partial overwrite. -/
theorem reload_error_preserves_certs (load : Except String KeyPair)
    (parse : Blob → Except String X509Cert) (certs : GoMap KeyPair)
    (e : String) (h : (loadCertificate load parse certs).2 = some e) :
    (loadCertificate load parse certs).1 = certs := by
  cases load with
  | error e' => rfl
  | ok cert =>
    cases hc : cert.certificate with
    | nil => simp [loadCertificate, hc]
    | cons b bs =>
      cases hp : parse b with
      | error e' => simp [loadCertificate, hc, hp]
      | ok x => simp [loadCertificate, hc, hp] at h

theorem reload_error_preserves_certs_witness :
    (loadCertificate (.error "open cert.pem: no such file or directory")
        (fun _ => .error "asn1 error") [("old.example", ⟨[9]⟩)]).2 =
      some ("failed to load certificate: " ++
        "open cert.pem: no such file or directory") ∧
    (loadCertificate (.error "open cert.pem: no such file or directory")
        (fun _ => .error "asn1 error") [("old.example", ⟨[9]⟩)]).1 =
      [("old.example", ⟨[9]⟩)] :=
  ⟨rfl,
   reload_error_preserves_certs
     (.error "open cert.pem: no such file or directory")
     (fun _ => .error "asn1 error") [("old.example", ⟨[9]⟩)]
     ("failed to load certificate: " ++
       "open cert.pem: no such file or directory") rfl⟩

/-- C4: `GetCertificate` with a hostname that exactly matches a stored
entry returns that certificate; on a non-empty store any hostname gets
some loaded certificate without error; and it returns the
"no certificate found" error exactly when the store is empty.  `order`
is the Go map iteration sequence, a permutation of the store. -/
theorem resolve_spec (certs : GoMap KeyPair)
    (order : List (String × KeyPair)) (host : String)
    (hperm : order.Perm certs) :
    (∀ c, goFind certs host = some c →
      GetCertificate certs order host = .ok c) ∧
    (certs ≠ [] → ∃ hn c, (hn, c) ∈ certs ∧
      GetCertificate certs order host = .ok c) ∧
    (GetCertificate certs order host =
        .error ("no certificate found for " ++ host) ↔ certs = []) := by
  refine ⟨?_, ?_, ?_, ?_⟩
  · intro c hc
    simp [GetCertificate, hc]
  · intro hne
    cases hfind : goFind certs host with
    | some c =>
      exact ⟨host, c, goFind_mem certs host c hfind,
        by simp [GetCertificate, hfind]⟩
    | none =>
      cases horder : order with
      | nil =>
        exact absurd (List.Perm.nil_eq (horder ▸ hperm)).symm hne
      | cons hd tl =>
        obtain ⟨hn, c⟩ := hd
        refine ⟨hn, c, ?_, by simp [GetCertificate, hfind, horder]⟩
        exact hperm.mem_iff.mp (horder ▸ List.mem_cons_self _ _)
  · intro herr
    unfold GetCertificate at herr
    cases hfind : goFind certs host with
    | some c => rw [hfind] at herr; cases herr
    | none =>
      rw [hfind] at herr
      cases horder : order with
      | nil => exact (List.Perm.nil_eq (horder ▸ hperm)).symm
      | cons hd tl =>
        obtain ⟨hn, c⟩ := hd
        rw [horder] at herr
        cases herr
  · intro hempty
    subst hempty
    have horder : order = [] := List.Perm.eq_nil hperm
    subst horder
    rfl

theorem resolve_spec_witness :
    ([("example.com", (⟨[1]⟩ : KeyPair))]).Perm [("example.com", ⟨[1]⟩)] ∧
    goFind [("example.com", (⟨[1]⟩ : KeyPair))] "example.com" = some ⟨[1]⟩ ∧
    GetCertificate [("example.com", ⟨[1]⟩)] [("example.com", ⟨[1]⟩)]
      "example.com" = .ok ⟨[1]⟩ :=
  ⟨List.Perm.refl _, rfl,
   (resolve_spec [("example.com", ⟨[1]⟩)] [("example.com", ⟨[1]⟩)]
      "example.com" (List.Perm.refl _)).1 ⟨[1]⟩ rfl⟩

/-- C5 counterexample: the fallback pick is *not* deterministic.  With the
two-certificate store \x7b"a.example" ↦ kpA, "b.example" ↦ kpB\x7d and a
hostname matching neither, the Go range loop returns the first entry of
the (unspecified) iteration order: one valid order yields `kpA`, its
reversal — equally valid, both are permutations of the store — yields
`kpB`, and the two certificates differ. -/
theorem resolve_fallback_order_dependent :
    ([("b.example", (⟨[2]⟩ : KeyPair)), ("a.example", ⟨[1]⟩)]).Perm
      [("a.example", ⟨[1]⟩), ("b.example", ⟨[2]⟩)] ∧
    GetCertificate [("a.example", ⟨[1]⟩), ("b.example", ⟨[2]⟩)]
      [("a.example", ⟨[1]⟩), ("b.example", ⟨[2]⟩)] "z.example" = .ok ⟨[1]⟩ ∧
    GetCertificate [("a.example", ⟨[1]⟩), ("b.example", ⟨[2]⟩)]
      [("b.example", ⟨[2]⟩), ("a.example", ⟨[1]⟩)] "z.example" = .ok ⟨[2]⟩ ∧
    (⟨[1]⟩ : KeyPair) ≠ ⟨[2]⟩ :=
  ⟨List.Perm.swap _ _ _, rfl, rfl, by decide⟩

/-- C5 amended: the no-match fallback returns the head of the map's
iteration order, so it is deterministic only when the store cannot be
iterated in two ways — in particular on a single-entry store (the common
case here, since reload always loads the one configured file pair) any
two iteration orders give the same certificate.  With two or more entries
the pick depends on the iteration order (see the counterexample). -/
theorem resolve_singleton_deterministic (e : String × KeyPair)
    (o1 o2 : List (String × KeyPair)) (host : String)
    (h1 : o1.Perm [e]) (h2 : o2.Perm [e]) :
    GetCertificate [e] o1 host = GetCertificate [e] o2 host := by
  rw [List.perm_singleton.mp h1, List.perm_singleton.mp h2]

theorem resolve_singleton_deterministic_witness :
    ([("a.example", (⟨[1]⟩ : KeyPair))]).Perm [("a.example", ⟨[1]⟩)] ∧
    GetCertificate [("a.example", ⟨[1]⟩)] [("a.example", ⟨[1]⟩)]
        "z.example" =
      GetCertificate [("a.example", ⟨[1]⟩)] [("a.example", ⟨[1]⟩)]
        "z.example" :=
  ⟨List.Perm.refl _,
   resolve_singleton_deterministic ("a.example", ⟨[1]⟩)
     [("a.example", ⟨[1]⟩)] [("a.example", ⟨[1]⟩)] "z.example"
     (List.Perm.refl _) (List.Perm.refl _)⟩

/-- C9: a successful `loadCertificate` replaces or inserts exactly the one
entry keyed by the leaf certificate's first SAN entry (else its subject
common name): the new map is `goInsert certs (certDomain x) kp`, the
returned error is `nil`, the map now contains the entry just loaded, and
every other hostname's entry is unchanged.  The hypothesis that the
loaded chain is non-empty reflects `tls.LoadX509KeyPair`, which never
succeeds with zero certificate blocks. -/
theorem reload_success_single_entry (load : Except String KeyPair)
    (parse : Blob → Except String X509Cert) (certs : GoMap KeyPair)
    (kp : KeyPair) (b : Blob) (bs : List Blob) (x : X509Cert)
    (hload : load = .ok kp) (hchain : kp.certificate = b :: bs)
    (hparse : parse b = .ok x) :
    (loadCertificate load parse certs).2 = none ∧
    (loadCertificate load parse certs).1 = goInsert certs (certDomain x) kp ∧
    goFind (loadCertificate load parse certs).1 (certDomain x) = some kp ∧
    ∀ hn, hn ≠ certDomain x →
      goFind (loadCertificate load parse certs).1 hn = goFind certs hn := by
  subst hload
  refine ⟨?_, ?_, ?_, ?_⟩
  · simp [loadCertificate, hchain, hparse]
  · simp [loadCertificate, hchain, hparse]
  · simp [loadCertificate, hchain, hparse, goFind_goInsert_self]
  · intro hn hne
    simp [loadCertificate, hchain, hparse,
      goFind_goInsert_ne _ _ _ _ hne]

theorem reload_success_single_entry_witness :
    ((.ok ⟨[7]⟩ : Except String KeyPair) = .ok ⟨[7]⟩) ∧
    ((⟨[7]⟩ : KeyPair).certificate = 7 :: []) ∧
    ((fun _ => .ok ⟨["example.com"], "cn"⟩ :
        Blob → Except String X509Cert) 7 = .ok ⟨["example.com"], "cn"⟩) ∧
    goFind (loadCertificate (.ok ⟨[7]⟩)
        (fun _ => .ok ⟨["example.com"], "cn"⟩)
        [("old.example", ⟨[9]⟩)]).1
      (certDomain ⟨["example.com"], "cn"⟩) = some ⟨[7]⟩ :=
  ⟨rfl, rfl, rfl,
   (reload_success_single_entry (.ok ⟨[7]⟩)
      (fun _ => .ok ⟨["example.com"], "cn"⟩) [("old.example", ⟨[9]⟩)]
      ⟨[7]⟩ 7 [] ⟨["example.com"], "cn"⟩ rfl rfl rfl).2.2.1⟩

/-! ### Model of `net/url.Parse`

`proxy.NewService` validates its URL argument with the Go standard
library's `url.Parse`.  The definitions below embed `url.Parse`'s
acceptance/rejection behaviour (and enough of the parsed structure to
read the scheme), following the structure of `net/url.parse` in the Go
standard library: control-character scan, `getScheme`, query split,
opaque/rootless handling with the colon-in-first-segment check for
schemeless URLs, authority and host validation, and percent-escape
checking for path, userinfo and fragment. -/

def isAlphaChar (c : Char) : Bool :=
  ('a' ≤ c && c ≤ 'z') || ('A' ≤ c && c ≤ 'Z')

def isDigitChar (c : Char) : Bool := '0' ≤ c && c ≤ '9'

/-- `rune` is a control byte (as in `stringContainsCTLByte`). -/
def isCTLChar (c : Char) : Bool := c.toNat < 0x20 || c.toNat = 0x7f

def containsCTL (s : List Char) : Bool := s.any isCTLChar

/-- `strings.Cut`-style split at the first occurrence of `sep`:
(before, after, found). -/
def cutChar : List Char → Char → List Char × List Char × Bool
  | [], _ => ([], [], false)
  | c :: rest, sep =>
    if c = sep then ([], rest, true)
    else
      let r := cutChar rest sep
      (c :: r.1, r.2.1, r.2.2)

/-- Split at the *last* occurrence of `sep`: `some (before, after)`, or
`none` when `sep` does not occur (as `strings.LastIndex`). -/
def cutLastChar : List Char → Char → Option (List Char × List Char)
  | [], _ => none
  | c :: rest, sep =>
    match cutLastChar rest sep with
    | some (a, b) => some (c :: a, b)
    | none => if c = sep then some ([], rest) else none

/-- `net/url.getScheme`: returns (scheme, remainder). -/
def getSchemeGo (raw : List Char) : List Char → Nat →
    Except String (List Char × List Char)
  | [], _ => .ok ([], raw)
  | c :: rest, i =>
    if isAlphaChar c then getSchemeGo raw rest (i + 1)
    else if isDigitChar c || c = '+' || c = '-' || c = '.' then
      if i = 0 then .ok ([], raw) else getSchemeGo raw rest (i + 1)
    else if c = ':' then
      if i = 0 then .error "missing protocol scheme"
      else .ok (raw.take i, raw.drop (i + 1))
    else .ok ([], raw)

def getScheme (raw : List Char) : Except String (List Char × List Char) :=
  getSchemeGo raw raw 0

/-- The escaping modes of `net/url.unescape` that `Parse` exercises. -/
inductive EncMode where
  | host
  | path
  | userinfo
  | fragment
deriving DecidableEq, Repr

def hexVal (c : Char) : Option Nat :=
  if '0' ≤ c ∧ c ≤ '9' then some (c.toNat - '0'.toNat)
  else if 'a' ≤ c ∧ c ≤ 'f' then some (c.toNat - 'a'.toNat + 10)
  else if 'A' ≤ c ∧ c ≤ 'F' then some (c.toNat - 'A'.toNat + 10)
  else none

/-- Characters that need no escaping in the host position
(`shouldEscape(c, encodeHost) == false`), plus all non-ASCII. -/
def hostCharOk (c : Char) : Bool :=
  isAlphaChar c || isDigitChar c ||
  c = '-' || c = '_' || c = '.' || c = '~' ||
  c = '!' || c = '$' || c = '&' || c = '\'' || c = '(' || c = ')' ||
  c = '*' || c = '+' || c = ',' || c = ';' || c = '=' || c = ':' ||
  c = '[' || c = ']' || c = '<' || c = '>' || c = '"' ||
  c.toNat ≥ 0x80

/-- The error-detection core of `net/url.unescape`: every `%` must be
followed by two hex digits; in host mode a `%`-escape may only encode a
non-ASCII byte (except the literal `%25`), and unescaped host characters
must be legal host characters. -/
def unescapeValid (mode : EncMode) : List Char → Bool
  | [] => true
  | ['%'] => false
  | ['%', _] => false
  | '%' :: a :: b :: rest =>
    match hexVal a, hexVal b with
    | some va, some _ =>
      if mode = .host ∧ va < 8 ∧ ¬(a = '2' ∧ b = '5') then false
      else unescapeValid mode rest
    | _, _ => false
  | c :: rest =>
    if mode = .host ∧ c.toNat < 0x80 ∧ ¬ hostCharOk c then false
    else unescapeValid mode rest

/-- `net/url.validOptionalPort`. -/
def validOptionalPort (p : List Char) : Bool :=
  match p with
  | [] => true
  | ':' :: digits => digits.all isDigitChar
  | _ => false

/-- `net/url.validUserinfo`. -/
def validUserinfoChar (c : Char) : Bool :=
  isAlphaChar c || isDigitChar c ||
  c = '-' || c = '.' || c = '_' || c = ':' || c = '~' || c = '!' ||
  c = '$' || c = '&' || c = '\'' || c = '(' || c = ')' || c = '*' ||
  c = '+' || c = ',' || c = ';' || c = '=' || c = '%' || c = '@'

/-- `net/url.parseHost` (keeping the raw host text; the model checks the
same error conditions but does not percent-decode). -/
def parseHost (host : List Char) : Except String (List Char) :=
  if host.head? = some '[' then
    match cutLastChar host ']' with
    | none => .error "missing ']' in host"
    | some (_, afterBracket) =>
      if validOptionalPort afterBracket then
        if unescapeValid .host host then .ok host
        else .error "invalid URL escape or host character"
      else .error "invalid port after host"
  else
    match cutLastChar host ':' with
    | some (_, after) =>
      if validOptionalPort (':' :: after) then
        if unescapeValid .host host then .ok host
        else .error "invalid URL escape or host character"
      else .error "invalid port after host"
    | none =>
      if unescapeValid .host host then .ok host
      else .error "invalid URL escape or host character"

/-- `net/url.parseAuthority` (the userinfo is validated and dropped; only
the host is kept). -/
def parseAuthority (authority : List Char) : Except String (List Char) :=
  match cutLastChar authority '@' with
  | none => parseHost authority
  | some (userinfo, hostPart) =>
    match parseHost hostPart with
    | .error e => .error e
    | .ok h =>
      if userinfo.all validUserinfoChar then
        if unescapeValid .userinfo userinfo then .ok h
        else .error "invalid URL escape"
      else .error "net/url: invalid userinfo"

/-- The fields of `url.URL` that the model tracks (`Opaque` is named
`opq`). -/
structure URL where
  scheme : String
  opq : String
  host : String
  path : String
  rawQuery : String
  forceQuery : Bool
  fragment : String
deriving DecidableEq, Repr

/-- The authority-and-path tail of `net/url.parse`: consume `//authority`
when present, then set the path. -/
def parseAuthorityAndPath (scheme : String) (rest : List Char)
    (rawQuery : List Char) (forceQuery : Bool) : Except String URL :=
  let hasAuth :=
    (['/', '/'].isPrefixOf rest) ∧
      (scheme ≠ "" ∨ ¬ (['/', '/', '/'].isPrefixOf rest))
  if hasAuth then
    let rest2 := rest.drop 2
    let asplit := cutChar rest2 '/'
    let authority := if asplit.2.2 then asplit.1 else rest2
    let restPath : List Char := if asplit.2.2 then '/' :: asplit.2.1 else []
    match parseAuthority authority with
    | .error e => .error e
    | .ok h =>
      if unescapeValid .path restPath then
        .ok { scheme := scheme, opq := "", host := h.asString,
              path := restPath.asString, rawQuery := rawQuery.asString,
              forceQuery := forceQuery, fragment := "" }
      else .error "invalid URL escape"
  else
    if unescapeValid .path rest then
      .ok { scheme := scheme, opq := "", host := "",
            path := rest.asString, rawQuery := rawQuery.asString,
            forceQuery := forceQuery, fragment := "" }
    else .error "invalid URL escape"

/-- `net/url.parse` with `viaRequest = false` (the fragment has already
been cut off). -/
def parseURL (raw : List Char) : Except String URL :=
  if containsCTL raw then .error "net/url: invalid control character in URL"
  else if raw = ['*'] then
    .ok { scheme := "", opq := "", host := "", path := "*", rawQuery := "",
          forceQuery := false, fragment := "" }
  else
    match getScheme raw with
    | .error e => .error e
    | .ok (schemeChars, rest0) =>
      let scheme := (schemeChars.map Char.toLower).asString
      let qsplit : List Char × List Char × Bool :=
        if rest0.getLast? = some '?' ∧ ¬ rest0.dropLast.contains '?' then
          (rest0.dropLast, [], true)
        else
          let r := cutChar rest0 '?'
          (r.1, r.2.1, false)
      let rest1 := qsplit.1
      let rawQuery := qsplit.2.1
      let forceQuery := qsplit.2.2
      if rest1.head? ≠ some '/' then
        if scheme ≠ "" then
          .ok { scheme := scheme, opq := rest1.asString, host := "",
                path := "", rawQuery := rawQuery.asString,
                forceQuery := forceQuery, fragment := "" }
        else
          if (cutChar rest1 '/').1.contains ':' then
            .error "first path segment in URL cannot contain colon"
          else parseAuthorityAndPath scheme rest1 rawQuery forceQuery
      else parseAuthorityAndPath scheme rest1 rawQuery forceQuery

/-- `net/url.Parse`: cut the fragment, parse, validate the fragment's
escapes. -/
def urlParse (rawURL : String) : Except String URL :=
  let csplit := cutChar rawURL.data '#'
  match parseURL csplit.1 with
  | .error e => .error e
  | .ok u =>
    if unescapeValid .fragment csplit.2.1 then
      .ok { u with fragment := csplit.2.1.asString }
    else .error "invalid URL escape"

/-- `proxy.NewService`: parse the URL; on failure return the
`"Service URL invalid"` error, otherwise build the service (the
`ReverseProxy` it constructs is determined by the URL). -/
def NewService (name Path Url : String) : Except String Service :=
  match urlParse Url with
  | .error e => .error ("Service URL invalid" ++ e)
  | .ok _ => .ok { name := name, path := Path, url := Url }

/-- The `add` branch of `(*RuntimeMux).CLI`: build the service with
`NewService`; on error print the message and leave the table alone;
otherwise call `AddProxy`.  The `Option String` is the error message
printed (`none` = success); `Except.error` is an `AddProxy` panic. -/
def cliAdd (ph : RuntimeMux) (name path url : String) :
    Except String (RuntimeMux × Option String) :=
  match NewService name path url with
  | .error e => .ok (ph, some ("Error creating service: " ++ e))
  | .ok svc =>
    match AddProxy ph svc with
    | .error p => .error p
    | .ok (ph', _) => .ok (ph', none)

/-- C6 counterexample: `add` does *not* fail for every URL that is not a
syntactically valid absolute URL.  `url.Parse` accepts relative URLs:
`"notaurl"` has no scheme (so it is not an absolute URL), yet
`NewService` succeeds and the `add` branch mutates the routing table. -/
theorem add_accepts_nonabsolute_url :
    urlParse "notaurl" =
      .ok { scheme := "", opq := "", host := "", path := "notaurl",
            rawQuery := "", forceQuery := false, fragment := "" } ∧
    NewService "svc" "/p/" "notaurl" =
      .ok { name := "svc", path := "/p/", url := "notaurl" } ∧
    cliAdd NewRuntimeMux "svc" "/p/" "notaurl" =
      .ok (⟨[("/p/", some ⟨"svc", "/p/", "notaurl"⟩)], ["/p/"]⟩, none) ∧
    (⟨[("/p/", some ⟨"svc", "/p/", "notaurl"⟩)], ["/p/"]⟩ :
        RuntimeMux).proxyServers ≠ NewRuntimeMux.proxyServers := by
  refine ⟨rfl, rfl, rfl, by decide⟩

/-- C6 amended: `add` fails exactly when Go's `url.Parse` rejects the URL
string — which is weaker than "not an absolute URL": relative URLs are
accepted (see the counterexample), while strings such as the spec's
example `--calhost-:=-8080/` are rejected (schemeless with a colon in
the first path segment).  When `url.Parse` rejects, `add` reports the
creation error and leaves the routing table unchanged, since `AddProxy`
is never reached. -/
theorem add_invalid_url_fails_frame (ph : RuntimeMux)
    (name p u e : String) (h : urlParse u = .error e) :
    NewService name p u = .error ("Service URL invalid" ++ e) ∧
    cliAdd ph name p u =
      .ok (ph, some ("Error creating service: " ++
        ("Service URL invalid" ++ e))) := by
  constructor
  · simp [NewService, h]
  · simp [cliAdd, NewService, h]

theorem add_invalid_url_fails_frame_witness :
    urlParse "--calhost-:=-8080/" =
      .error "first path segment in URL cannot contain colon" ∧
    cliAdd NewRuntimeMux "svc" "/p/" "--calhost-:=-8080/" =
      .ok (NewRuntimeMux, some ("Error creating service: " ++
        ("Service URL invalid" ++
          "first path segment in URL cannot contain colon"))) :=
  ⟨rfl,
   (add_invalid_url_fails_frame NewRuntimeMux "svc" "/p/"
      "--calhost-:=-8080/" "first path segment in URL cannot contain colon"
      rfl).2⟩

end ReverseProxy
